import Mathlib

/-!
Verification development for the Nexus Python client SDK
(`nexus_api` / `nexus_extensibility`).

The relevant parts of the Python sources are shallowly embedded as
executable Lean definitions:

* the naming-convention utilities `to_camel_case` / `to_snake_case`
  (`_encoder.py`) and the enum codec configured in `_shared.py`;
* the fixed-format `timedelta` codec (`_encode_timedelta` /
  `_decode_timedelta` in `_encoder.py`), with a Python `timedelta`
  represented by its total number of microseconds (an `Int`; Python
  normalizes `days`/`seconds`/`microseconds` by floor division exactly as
  `Int.fdiv`/`Int.fmod` do);
* the record-decoding branch of `JsonEncoder._decode` (`_encoder.py`);
* the request invoker `NexusClient._invoke` (`_client.py`);
* `NexusClient._read_as_double` (`_client.py`);
* the configuration-header state machine
  (`attach_configuration` / `clear_configuration` /
  `_DisposableConfiguration.__exit__` in `_client.py`);
* the polling/download/extract phases of `NexusClient.export`
  (`_client.py`); the async variants are line-for-line identical state
  machines and are covered by the same model;
* the `ResourceCatalog` identifier validation
  (`_data_model.py` in `nexus_extensibility`).

Python character classes `[a-zA-Z]`, `[0-9]`, `str.lower` etc. are used on
ASCII data throughout the SDK and are modelled with Lean's ASCII
`Char.isAlpha`, `Char.isDigit`, `Char.toLower`, ... .  Python's `re` anchor
`$` also matches just before a single trailing newline; none of the strings
handled in this development ends in a newline, where that semantics and
end-of-string agree, so `$` is modelled as end-of-string.
-/

deriving instance DecidableEq for Except

namespace Nexus

/-! ### Naming-convention utilities (`_encoder.py`) -/

/-- One character of Python's `str.title()` (ASCII): an alphabetic character
is uppercased when the preceding character is not alphabetic and lowercased
otherwise; other characters are kept and reset the word boundary. -/
def titleGo : Bool → List Char → List Char
  | _, [] => []
  | prevCased, c :: rest =>
    (if c.isAlpha then (if prevCased then c.toLower else c.toUpper) else c)
      :: titleGo c.isAlpha rest

/-- Python's `value.split(sep)` for a one-character separator, over
character lists (`"".split("_") = [""]`, `"_".split("_") = ["", ""]`). -/
def splitOnChar (sep : Char) : List Char → List (List Char)
  | [] => [[]]
  | c :: rest =>
    if c = sep then [] :: splitOnChar sep rest
    else
      match splitOnChar sep rest with
      | [] => [[c]]
      | g :: gs => (c :: g) :: gs

/-- `to_camel_case` from `_encoder.py`:
`components = value.split("_"); return components[0] + ''.join(x.title() for x in components[1:])`.
Note that the first component is returned unchanged. -/
def to_camel_case (value : String) : String :=
  match splitOnChar '_' value.data with
  | [] => ""
  | first :: rest => String.mk (first ++ (rest.map (titleGo false)).flatten)

/-- Character scan implementing the substitution of
`snake_case_pattern = ((?<=[a-z0-9])[A-Z]|(?!^)[A-Z](?=[a-z]))` by `_\1`
(`to_snake_case` in `_encoder.py`): an uppercase character is prefixed with
`_` when it is preceded by a lowercase letter or digit, or when it is not at
the start and is followed by a lowercase letter.  `prev` is the original
preceding character. -/
def snakeMark : Option Char → List Char → List Char
  | _, [] => []
  | prev, c :: rest =>
    let matched :=
      c.isUpper &&
        ((match prev with
          | some p => p.isLower || p.isDigit
          | none => false)
         || (prev.isSome &&
             (match rest with
              | r :: _ => r.isLower
              | [] => false)))
    (if matched then ['_', c] else [c]) ++ snakeMark (some c) rest

/-- `to_snake_case` from `_encoder.py`: regex substitution followed by
`.lower()`. -/
def to_snake_case (value : String) : String :=
  String.mk ((snakeMark none value.data).map Char.toLower)

/-- Python's `str.upper()` for ASCII strings. -/
def pyUpper (s : String) : String :=
  String.mk (s.data.map Char.toUpper)

/-! ### The `TaskStatus` enum (`_nexus_api.py`) and the SDK enum codec
(`_shared.py`, lines 25-26) -/

/-- The `TaskStatus` enum of `_nexus_api.py`. -/
inductive TaskStatus where
  | CREATED
  | WAITING_FOR_ACTIVATION
  | WAITING_TO_RUN
  | RUNNING
  | WAITING_FOR_CHILDREN_TO_COMPLETE
  | RAN_TO_COMPLETION
  | CANCELED
  | FAULTED
deriving DecidableEq

/-- The Python member name (`member.name`) of a `TaskStatus` member. -/
def TaskStatus.memberName : TaskStatus → String
  | .CREATED => "CREATED"
  | .WAITING_FOR_ACTIVATION => "WAITING_FOR_ACTIVATION"
  | .WAITING_TO_RUN => "WAITING_TO_RUN"
  | .RUNNING => "RUNNING"
  | .WAITING_FOR_CHILDREN_TO_COMPLETE => "WAITING_FOR_CHILDREN_TO_COMPLETE"
  | .RAN_TO_COMPLETION => "RAN_TO_COMPLETION"
  | .CANCELED => "CANCELED"
  | .FAULTED => "FAULTED"

/-- All members of `TaskStatus`, used to model the `typeCls[key]` member
lookup. -/
def TaskStatus.members : List TaskStatus :=
  [.CREATED, .WAITING_FOR_ACTIVATION, .WAITING_TO_RUN, .RUNNING,
   .WAITING_FOR_CHILDREN_TO_COMPLETE, .RAN_TO_COMPLETION, .CANCELED, .FAULTED]

/-- `typeCls[key]` for `TaskStatus`: the member whose name equals `key`,
if any (`KeyError` is modelled as `none`). -/
def taskStatusOfName (key : String) : Option TaskStatus :=
  TaskStatus.members.find? (fun m => m.memberName = key)

/-- The SDK enum encoder (`_shared.py` line 25):
`_json_encoder_options.encoders[Enum] = lambda value: to_camel_case(value.name)`.
`JsonEncoder._try_encode` resolves a `TaskStatus` value to this encoder by
walking the ancestry `[TaskStatus, Enum]`. -/
def encodeTaskStatus (m : TaskStatus) : String :=
  to_camel_case m.memberName

/-- The SDK enum decoder (`_shared.py` line 26):
`_json_encoder_options.decoders[Enum] = lambda typeCls, value: typeCls[to_snake_case(value).upper()]`. -/
def decodeTaskStatus (value : String) : Option TaskStatus :=
  taskStatusOfName (pyUpper (to_snake_case value))

/-! ### The `timedelta` codec (`_encoder.py`, lines 174-200)

A Python `timedelta` is represented by its total number of microseconds
`t : Int`; Python's normalized attributes are `days = t.fdiv 86400000000`,
and `seconds`/`microseconds` are derived from `t.fmod 86400000000`
(floor division, exactly Python's `//`/`%`). -/

/-- The decimal digit character of `d` (`d < 10`). -/
def digitChar (d : Nat) : Char :=
  Char.ofNat (48 + d)

/-- Decimal rendering with explicit fuel (structural recursion, so that
concrete instances evaluate); `fuel > n` suffices since the number of
digits is at most `n`. -/
def natReprGo (fuel : Nat) (n : Nat) : List Char :=
  match fuel with
  | 0 => []
  | fuel + 1 =>
    if n < 10 then [digitChar n] else natReprGo fuel (n / 10) ++ [digitChar (n % 10)]

/-- Python's decimal rendering of a natural number (`f"{n}"`). -/
def natRepr (n : Nat) : List Char :=
  natReprGo (n + 1) n

/-- Zero padding to width `w` (`f"{n:0w}"`). -/
def padZero (w : Nat) (ds : List Char) : List Char :=
  List.replicate (w - ds.length) '0' ++ ds

/-- Python's decimal rendering of an integer (`f"{i}"`). -/
def intRepr (i : Int) : List Char :=
  if i < 0 then '-' :: natRepr i.natAbs else natRepr i.toNat

/-- `_encode_timedelta` from `_encoder.py`:
`hours, remainder = divmod(value.seconds, 3600)`,
`minutes, seconds = divmod(remainder, 60)`,
`f"{int(value.days)}.{int(hours):02}:{int(minutes):02}:{int(seconds):02}.{value.microseconds:06d}0"`. -/
def encode_timedelta (t : Int) : String :=
  let days : Int := t.fdiv 86400000000
  let rem : Nat := (t.fmod 86400000000).toNat
  let secs : Nat := rem / 1000000
  let micros : Nat := rem % 1000000
  let hours : Nat := secs / 3600
  let remainder : Nat := secs % 3600
  let minutes : Nat := remainder / 60
  let seconds : Nat := remainder % 60
  String.mk
    (intRepr days ++ '.' :: padZero 2 (natRepr hours)
      ++ ':' :: padZero 2 (natRepr minutes) ++ ':' :: padZero 2 (natRepr seconds)
      ++ '.' :: padZero 6 (natRepr micros) ++ ['0'])

/-- The numeric value of a decimal digit character. -/
def digitVal (c : Char) : Nat :=
  c.toNat - 48

/-- The numeric value of a string of decimal digits (`int(...)`). -/
def digitsToNat (ds : List Char) : Nat :=
  ds.foldl (fun a c => a * 10 + digitVal c) 0

/-- Division of `n` by 10 rounding halves to even, modelling
`int(match.group(5)) / 10.0` stored into the integral microsecond count of a
Python `timedelta` (CPython rounds half to even; the `float` detour may
differ for subsecond groups of more than about 15 digits, which never arise
in this development). -/
def divRoundHalfEven10 (n : Nat) : Nat :=
  if n % 10 < 5 then n / 10
  else if 5 < n % 10 then n / 10 + 1
  else if (n / 10) % 2 = 0 then n / 10 else n / 10 + 1

/-- The optional subsecond group `(?:\.([0-9]+))?$` of `timedelta_pattern`,
returning the resulting microsecond count (`0` when absent). -/
def parseSubsec : List Char → Option Nat
  | [] => some 0
  | c :: ds =>
    if c = '.' ∧ ds ≠ [] ∧ ds.all Char.isDigit then
      some (divRoundHalfEven10 (digitsToNat ds))
    else none

/-- The `([0-9]{2}):([0-9]{2}):([0-9]{2})` core of `timedelta_pattern`
followed by the optional subsecond group, combined into the total
microsecond count
`timedelta(days=days, hours=hours, minutes=minutes, seconds=seconds, microseconds=microseconds)`. -/
def parseHMS (days : Nat) : List Char → Option Int
  | h1 :: h2 :: c1 :: m1 :: m2 :: c2 :: s1 :: s2 :: rest =>
    if c1 = ':' ∧ c2 = ':' ∧ h1.isDigit ∧ h2.isDigit ∧ m1.isDigit ∧ m2.isDigit
        ∧ s1.isDigit ∧ s2.isDigit then
      match parseSubsec rest with
      | some micros =>
        some (((days * 86400 + digitsToNat [h1, h2] * 3600 + digitsToNat [m1, m2] * 60
          + digitsToNat [s1, s2]) * 1000000 + micros : Nat) : Int)
      | none => none
    else none
  | _ => none

/-- `_decode_timedelta` from `_encoder.py`: match against
`^(?:([0-9]+)\.)?([0-9]{2}):([0-9]{2}):([0-9]{2})(?:\.([0-9]+))?$` and build
the `timedelta`; a failed match (`raise`) is `none`.  The optional day group
`([0-9]+)\.` is present exactly when the maximal leading digit run is
followed by `.` (the run cannot straddle the literal dot, so backtracking
cannot choose a different split). -/
def decode_timedelta (value : String) : Option Int :=
  let cs := value.data
  let run := cs.takeWhile Char.isDigit
  match cs.dropWhile Char.isDigit with
  | c :: rest2 =>
    if c = '.' then
      if run = [] then none else parseHMS (digitsToNat run) rest2
    else parseHMS 0 cs
  | [] => parseHMS 0 cs

/-! ### Catalog identifier validation (`_data_model.py`) -/

/-- The character class `[a-zA-Z_]` of
`ResourceCatalog.valid_id_expression`. -/
def isIdStart (c : Char) : Bool :=
  c.isAlpha || c = '_'

/-- The character class `[a-zA-Z_0-9]` of
`ResourceCatalog.valid_id_expression`. -/
def isIdChar (c : Char) : Bool :=
  c.isAlpha || c = '_' || c.isDigit

/-- Recognizer for the remainder after a valid group start of
`(?:\/[a-zA-Z_][a-zA-Z_0-9]*)+$`: identifier characters continue the current
group, `/` starts a new group (which needs a `[a-zA-Z_]` character), and the
end of the string ends the match. -/
def catalogIdTail : List Char → Bool
  | [] => true
  | '/' :: c :: rest => isIdStart c && catalogIdTail rest
  | '/' :: [] => false
  | c :: rest => isIdChar c && catalogIdTail rest

/-- `ResourceCatalog.valid_id_expression.match(id)`:
the regex `(?:\/[a-zA-Z_][a-zA-Z_0-9]*)+$` applied at position 0
(`re.match`), i.e. the whole string is one or more `/name` groups.  Since
`/` is not an identifier character, greedy group parsing is deterministic
and equivalent to the backtracking regex. -/
def validCatalogId (s : String) : Bool :=
  match s.data with
  | '/' :: c :: rest => isIdStart c && catalogIdTail rest
  | _ => false

/-- `ResourceCatalog.__post_init__` (`_data_model.py`): validates the
identifier, then (when a resource list is given, here modelled by the
resource identifiers) rejects duplicate resource identifiers.
`dedup` mirrors `set(...)`-based uniqueness counting. -/
def mkResourceCatalog (id : String) (resources : Option (List String)) :
    Except String Unit :=
  if !validCatalogId id then
    .error ("The resource catalog identifier " ++ id ++ " is not valid.")
  else
    match resources with
    | none => .ok ()
    | some rs =>
      if rs.dedup.length ≠ rs.length then
        .error "There are multiple resources with the same identifier."
      else
        .ok ()

/-! ### Record decoding (`JsonEncoder._decode`, `_encoder.py` lines 133-162)

The dataclass branch of `_decode` is modelled over an abstract field table:
a record type is a list of declared fields `(name, kind)` where the kind
distinguishes the `int` hint, the `float` hint and every other hint (the
three cases of the defaulting loop).  The recursive `_decode` call on a
staged field value is abstracted as a parameter `decodeF`.  The generated
wire dataclasses declare no `ClassVar` fields, so the `ClassVar` skip in
the defaulting loop is vacuous here. -/

/-- Generic JSON values (the result of `json.loads`). -/
inductive JsonVal where
  | null
  | bool (b : Bool)
  | num (q : ℚ)
  | str (s : String)
  | arr (elements : List JsonVal)
  | obj (members : List (String × JsonVal))

/-- Field hints of a wire dataclass, as distinguished by the defaulting loop
of `_decode`. -/
inductive FieldKind where
  | int
  | float
  | other
deriving DecidableEq

/-- Decoded field values: an integer, a floating-point number (modelled as
`ℚ`), `None`, or a recursively decoded value (kept abstract). -/
inductive FieldVal where
  | vint (i : Int)
  | vfloat (q : ℚ)
  | vnone
  | vdec (kind : FieldKind) (j : JsonVal)

/-- `type_hints.get(key)` over the abstract field table. -/
def lookupFieldKind (fields : List (String × FieldKind)) (name : String) :
    Option FieldKind :=
  (fields.find? (fun f => f.1 = name)).map (fun f => f.2)

/-- The defaulting loop of `_decode`:
`0` for `int` fields, `0.0` for `float` fields, `None` otherwise. -/
def defaultFor : FieldKind → FieldVal
  | .int => .vint 0
  | .float => .vfloat 0
  | .other => .vnone

/-- The first loop of the dataclass branch of `JsonEncoder._decode`: every
JSON member whose `property_name_decoder`-translated key names a declared
field is staged into `parameters` (recursively decoded via `decodeF`);
members naming no declared field are dropped. -/
def stagedParameters (pnd : String → String) (decodeF : FieldKind → JsonVal → FieldVal)
    (fields : List (String × FieldKind)) (data : List (String × JsonVal)) :
    List (String × FieldVal) :=
  data.filterMap (fun kv =>
    match lookupFieldKind fields (pnd kv.1) with
    | some kind => some (pnd kv.1, decodeF kind kv.2)
    | none => none)

/-- The dataclass branch of `JsonEncoder._decode`: stage the recognized
members (later duplicates overwrite, as in the `parameters` dict, hence the
lookup on the reversed staging list); declared fields left unstaged are
filled with `defaultFor`; the constructed instance assigns every declared
field its staged or defaulted value. -/
def decodeRecord (pnd : String → String) (decodeF : FieldKind → JsonVal → FieldVal)
    (fields : List (String × FieldKind)) (data : List (String × JsonVal)) :
    List (String × FieldVal) :=
  fields.map (fun f =>
    (f.1,
      ((((stagedParameters pnd decodeF fields data).reverse.find?
          (fun kv => kv.1 = f.1)).map (fun kv => kv.2)).getD
        (defaultFor f.2))))

/-- The SDK `property_name_decoder` (`_shared.py` line 22):
`to_snake_case(value) if value != "class" else "class_"`. -/
def property_name_decoder (value : String) : String :=
  if value = "class" then "class_" else to_snake_case value

/-! ### The request invoker (`NexusClient._invoke`, `_client.py` lines
127-167; `NexusAsyncClient._invoke` is identical) -/

/-- A `NexusException` (`_shared.py`): a structured status code and a
message. -/
structure NexusExceptionM where
  status_code : String
  message : String
deriving DecidableEq

/-- The transport response as consumed by `_invoke`: HTTP status code and
textual body. -/
structure ResponseM where
  status : Nat
  text : String
deriving DecidableEq

/-- Python's decimal rendering of a natural number, as a `String`. -/
def natStr (n : Nat) : String :=
  String.mk (natRepr n)

/-- `httpx.Response.is_success`: the status code is in the 2xx range. -/
def isSuccessStatus (code : Nat) : Bool :=
  200 ≤ code && code ≤ 299

/-- The three return shapes of `_invoke`: `typeOfT is type(None)`,
`typeOfT is Response`, and a typed decode target. -/
inductive TargetKind where
  | noneType
  | rawResponse
  | typed
deriving DecidableEq

/-- Successful results of `_invoke`. -/
inductive InvokeOk (V : Type) where
  | noneVal
  | raw
  | value (v : V)
deriving DecidableEq

/-- `NexusClient._invoke` after the transport send: non-2xx responses raise
`NexusException` with code `"N00.<status>"` and a generic or detailed
message; on 2xx the three target shapes are dispatched, raising
`NexusException("N01", ...)` when `JsonEncoder.decode` produced `None` for a
typed target.  `decoded` is the result of `JsonEncoder.decode` on the parsed
body (`None` modelled as `none`). -/
def invoke {V : Type} (target : TargetKind) (resp : ResponseM) (decoded : Option V) :
    Except NexusExceptionM (InvokeOk V) :=
  if !isSuccessStatus resp.status then
    let status_code := "N00." ++ natStr resp.status
    if resp.text = "" then
      .error ⟨status_code,
        "The HTTP request failed with status code " ++ natStr resp.status ++ "."⟩
    else
      .error ⟨status_code,
        "The HTTP request failed with status code " ++ natStr resp.status
          ++ ". The response message is: " ++ resp.text⟩
  else
    match target with
    | .noneType => .ok .noneVal
    | .rawResponse => .ok .raw
    | .typed =>
      match decoded with
      | none => .error ⟨"N01", "Response data could not be deserialized."⟩
      | some v => .ok (.value v)

/-! ### Numeric stream validation (`NexusClient._read_as_double`,
`_client.py` lines 246-255) -/

/-- Groups of eight consecutive bytes; `array("d", byteBuffer)` reinterprets
each group as one 64-bit floating-point sample (a sample is identified with
its eight bytes; the IEEE bit-level value is not modelled). -/
def chunks8 {α : Type} : List α → List (List α)
  | [] => []
  | a :: rest => (a :: rest.take 7) :: chunks8 (rest.drop 7)
termination_by l => l.length
decreasing_by simp; omega

/-- `NexusClient._read_as_double`: reject byte buffers whose length is not a
multiple of 8 (`raise Exception("The data length is invalid.")`), otherwise
reinterpret as 64-bit floating-point samples. -/
def read_as_double (byteBuffer : List Nat) : Except String (List (List Nat)) :=
  if byteBuffer.length % 8 ≠ 0 then .error "The data length is invalid."
  else .ok (chunks8 byteBuffer)

/-! ### Configuration header state (`_client.py` lines 26-37 and 105-125) -/

/-- The mutable header map of the HTTP client, keyed by header name. -/
def HeadersM : Type := String → Option String

/-- `del headers[k]` (the source guards the deletion with a containment
check, which is pointwise equivalent). -/
def headerDel (h : HeadersM) (k : String) : HeadersM :=
  fun key => if key = k then none else h key

/-- `headers[k] = v`. -/
def headerSet (h : HeadersM) (k v : String) : HeadersM :=
  fun key => if key = k then some v else h key

/-- `NexusClient.___configuration_header_key`. -/
def configurationHeaderKey : String := "Nexus-Configuration"

/-- `NexusClient.attach_configuration`: delete any present configuration
header, then set it to the encoded configuration (`encoded_json` stands for
the base64-encoded JSON payload, whose contents are irrelevant to the header
state). -/
def attach_configuration (h : HeadersM) (encoded_json : String) : HeadersM :=
  headerSet (headerDel h configurationHeaderKey) configurationHeaderKey encoded_json

/-- `NexusClient.clear_configuration`: delete the configuration header if
present. -/
def clear_configuration (h : HeadersM) : HeadersM :=
  headerDel h configurationHeaderKey

/-- `_DisposableConfiguration.__exit__`: runs `clear_configuration` on the
client, on normal and on exceptional scope exit alike. -/
def disposableConfigurationExit (h : HeadersM) : HeadersM :=
  clear_configuration h

/-! ### The export workflow (`NexusClient.export`, `_client.py` lines
257-363; `NexusAsyncClient.export` is the identical state machine)

The poll loop is driven by the finite sequence of `JobStatus` snapshots the
server would return; running out of snapshots (`PollExit.exhausted` /
`ExportOutcome.pollsExhausted`) models the loop polling beyond the given
sequence.  The `on_progress` callback is modelled as always present, every
invocation being recorded in a trace.  `time.sleep` has no observable
effect.  The returned `Bool` records whether the artifact download was
performed. -/

/-- The shapes of `job_status.result` (`Optional[object]`) distinguished by
`type(job_status.result) == str`: a string, or any non-string object. -/
inductive PyVal where
  | str (s : String)
  | nonStr
deriving DecidableEq

/-- A `JobStatus` snapshot as consumed by the export poll loop. -/
structure JobStatusM where
  status : TaskStatus
  progress : ℚ
  exception_message : Option String
  result : Option PyVal
deriving DecidableEq

/-- Python's f-string rendering of an `Optional[str]` (`None` renders as
`"None"`). -/
def pyStrOfOpt : Option String → String
  | some s => s
  | none => "None"

/-- How the poll loop terminates. -/
inductive PollExit where
  | cancelled
  | faulted (exception_message : Option String)
  | completed (artifact_id : Option String)
  | exhausted
deriving DecidableEq

/-- The `while True` poll loop of `export`: per tick, `CANCELED` and
`FAULTED` raise; `RAN_TO_COMPLETION` with a string result assigns
`artifact_id` and breaks; every other tick (including `RAN_TO_COMPLETION`
with an absent or non-string result) falls through to the progress callback
(`if job_status.progress < 1`) and polls again.  Returns the exit and the
trace of `(progress, "export")` callbacks emitted inside the loop. -/
def pollLoop : List JobStatusM → PollExit × List (ℚ × String)
  | [] => (.exhausted, [])
  | js :: rest =>
    if js.status = .CANCELED then (.cancelled, [])
    else if js.status = .FAULTED then (.faulted js.exception_message, [])
    else
      match js.status, js.result with
      | .RAN_TO_COMPLETION, some (.str s) => (.completed (some s), [])
      | _, _ =>
        let tick := if js.progress < 1 then [(js.progress, "export")] else []
        let next := pollLoop rest
        (next.1, tick ++ next.2)

/-- The artifact download stream: chunk byte lengths as produced by
`response.iter_bytes()`, and the optional parsed `Content-Length` header. -/
structure DownloadM where
  chunks : List Nat
  contentLength : Option Nat
deriving DecidableEq

/-- The per-chunk download callbacks: after each chunk,
`consumed += len(data)` and, when the content length is known and
`consumed < length`, a `(consumed / length, "download")` callback. -/
def downloadTicks (contentLength : Option Nat) : List Nat → Nat → List (ℚ × String)
  | [], _ => []
  | c :: rest, consumed =>
    let consumed2 := consumed + c
    let tick :=
      match contentLength with
      | some len =>
        if consumed2 < len then [((consumed2 : ℚ) / (len : ℚ), "download")] else []
      | none => []
    tick ++ downloadTicks contentLength rest consumed2

/-- The full download-phase callback trace: per-chunk callbacks followed by
the unconditional final `(1, "download")`. -/
def downloadCallbacks (dl : DownloadM) : List (ℚ × String) :=
  downloadTicks dl.contentLength dl.chunks 0 ++ [(1, "download")]

/-- The observable outcomes of `export`. -/
inductive ExportOutcome where
  | ok
  | cancelledError
  | faultedError (message : String)
  | invalidResultError
  | pollsExhausted
deriving DecidableEq

/-- `NexusClient.export` after job submission: run the poll loop; on normal
loop exit emit the final `(1, "export")` callback, then raise
`Exception("The job result is invalid.")` when `artifact_id is None`, return
without download when `file_format is None`, and otherwise download the
artifact (emitting the download callbacks), extract it, and emit the final
`(1, "extract")` callback.  Returns the outcome, the full callback trace,
and whether the download was performed. -/
def export_sim (file_format : Option String) (polls : List JobStatusM)
    (dl : DownloadM) : ExportOutcome × List (ℚ × String) × Bool :=
  match pollLoop polls with
  | (.cancelled, tr) => (.cancelledError, tr, false)
  | (.faulted m, tr) =>
    (.faultedError ("The job has failed. Reason: " ++ pyStrOfOpt m), tr, false)
  | (.exhausted, tr) => (.pollsExhausted, tr, false)
  | (.completed artifact_id, tr) =>
    let tr2 := tr ++ [(1, "export")]
    match artifact_id with
    | none => (.invalidResultError, tr2, false)
    | some _ =>
      match file_format with
      | none => (.ok, tr2, false)
      | some _ => (.ok, tr2 ++ downloadCallbacks dl ++ [(1, "extract")], true)

/-- Whether `job_status.result` is a string
(`job_status.result is not None and type(job_status.result) == str`). -/
def isStrResult : Option PyVal → Bool
  | some (.str _) => true
  | _ => false

/-- A poll tick on which the loop neither raises nor breaks: not `CANCELED`,
not `FAULTED`, and not `RAN_TO_COMPLETION` with a string result. -/
def jobContinues (s : JobStatusM) : Bool :=
  !(s.status == .CANCELED) && !(s.status == .FAULTED)
    && !(s.status == .RAN_TO_COMPLETION && isStrResult s.result)

/-- The poll sequence of the end-to-end export scenario:
`Running(0.3) → Running(0.7) → RanToCompletion(result="artifact-1")`. -/
def examplePolls : List JobStatusM :=
  [⟨.RUNNING, 3/10, none, none⟩, ⟨.RUNNING, 7/10, none, none⟩,
   ⟨.RAN_TO_COMPLETION, 1, none, some (.str "artifact-1")⟩]

/-! ## Theorems -/

/-- C7: Constructing a `ResourceCatalog` with identifier `"/a"`, `"/_a"`, or
`"/a9_b/c__99"` succeeds, and constructing one with identifier `""`, `"/"`,
`"/a/"`, `"/9"`, or `"a"` fails (with the invalid-identifier error). -/
theorem C7_catalog_id_grammar :
    mkResourceCatalog "/a" none = .ok ()
    ∧ mkResourceCatalog "/_a" none = .ok ()
    ∧ mkResourceCatalog "/a9_b/c__99" none = .ok ()
    ∧ mkResourceCatalog "" none =
        .error "The resource catalog identifier  is not valid."
    ∧ mkResourceCatalog "/" none =
        .error "The resource catalog identifier / is not valid."
    ∧ mkResourceCatalog "/a/" none =
        .error "The resource catalog identifier /a/ is not valid."
    ∧ mkResourceCatalog "/9" none =
        .error "The resource catalog identifier /9 is not valid."
    ∧ mkResourceCatalog "a" none =
        .error "The resource catalog identifier a is not valid." := by
  decide

/-- C2 counterexample: under the SDK codec options, the enum member
`RAN_TO_COMPLETION` does NOT encode to `"ranToCompletion"`: `to_camel_case`
leaves the first `_`-separated component of the member name unchanged, so
the encoding is `"RANToCompletion"`. -/
theorem C2_counterexample :
    encodeTaskStatus TaskStatus.RAN_TO_COMPLETION ≠ "ranToCompletion" := by
  decide

/-- C2 (amended): under the SDK codec options, encoding an enum member
yields its name passed through the name-encoder, which maps
`RAN_TO_COMPLETION` to `"RANToCompletion"` (not `"ranToCompletion"`);
decoding that encoded string — and likewise the server-side camel-case
spelling `"ranToCompletion"` — yields the original member, and
`decode ∘ encode` is the identity on every `TaskStatus` member. -/
theorem C2_enum_casing :
    encodeTaskStatus TaskStatus.RAN_TO_COMPLETION = "RANToCompletion"
    ∧ decodeTaskStatus "RANToCompletion" = some TaskStatus.RAN_TO_COMPLETION
    ∧ decodeTaskStatus "ranToCompletion" = some TaskStatus.RAN_TO_COMPLETION
    ∧ ∀ m : TaskStatus, decodeTaskStatus (encodeTaskStatus m) = some m := by
  refine ⟨by decide, by decide, by decide, ?_⟩
  intro m
  cases m <;> decide

/-- The number of eight-byte chunks: `ceil(length / 8)`. -/
theorem chunks8_length {α : Type} (l : List α) :
    (chunks8 l).length = (l.length + 7) / 8 := by
  induction l using chunks8.induct with
  | case1 => simp [chunks8]
  | case2 a rest ih =>
    rw [chunks8]
    simp only [List.length_cons, List.length_drop] at *
    omega

/-- C8: `_read_as_double` fails with the invalid-data-length error exactly
when the byte length is not a multiple of 8; a buffer whose length is a
multiple of 8 yields `length / 8` 64-bit floating-point samples — in
particular a 16-byte buffer yields exactly 2 samples. -/
theorem C8_read_as_double :
    (∀ b : List Nat, b.length % 8 ≠ 0 →
      read_as_double b = .error "The data length is invalid.")
    ∧ (∀ b : List Nat, b.length % 8 = 0 →
        read_as_double b = .ok (chunks8 b) ∧ (chunks8 b).length = b.length / 8)
    ∧ (∀ b : List Nat, b.length = 16 →
        read_as_double b = .ok (chunks8 b) ∧ (chunks8 b).length = 2) := by
  refine ⟨?_, ?_, ?_⟩
  · intro b hb
    simp [read_as_double, hb]
  · intro b hb
    refine ⟨by simp [read_as_double, hb], ?_⟩
    rw [chunks8_length]
    omega
  · intro b hb
    refine ⟨by simp [read_as_double, hb], ?_⟩
    rw [chunks8_length, hb]

/-- C8 witness: a 12-byte buffer is rejected and a 16-byte buffer yields
exactly 2 samples. -/
theorem C8_read_as_double_witness :
    read_as_double (List.replicate 12 0) = .error "The data length is invalid."
    ∧ read_as_double (List.replicate 16 0) = .ok (chunks8 (List.replicate 16 0))
    ∧ (chunks8 (List.replicate 16 0)).length = 2 := by
  refine ⟨C8_read_as_double.1 (List.replicate 12 0) (by decide), ?_, ?_⟩
  · exact (C8_read_as_double.2.2 (List.replicate 16 0) (by decide)).1
  · exact (C8_read_as_double.2.2 (List.replicate 16 0) (by decide)).2

/-- C6: for every request dispatched by the invoker, a non-2xx transport
response raises a `NexusException` whose structured code is `"N00."`
followed by the HTTP status code, with the generic failure message when the
response body is empty and with the body appended as detail otherwise; a
2xx response whose JSON decode against a typed (non-`Response`, non-`None`)
target yields `None` raises a `NexusException` with code `"N01"`. -/
theorem C6_invoke_errors :
    (∀ (V : Type) (target : TargetKind) (resp : ResponseM) (decoded : Option V),
      isSuccessStatus resp.status = false →
      invoke target resp decoded =
        .error ⟨"N00." ++ natStr resp.status,
          if resp.text = "" then
            "The HTTP request failed with status code " ++ natStr resp.status ++ "."
          else
            "The HTTP request failed with status code " ++ natStr resp.status
              ++ ". The response message is: " ++ resp.text⟩)
    ∧ (∀ (V : Type) (resp : ResponseM),
        isSuccessStatus resp.status = true →
        invoke (V := V) .typed resp none =
          .error ⟨"N01", "Response data could not be deserialized."⟩) := by
  constructor
  · intro V target resp decoded h
    simp only [invoke, h, Bool.not_false, if_true]
    split <;> rfl
  · intro V resp h
    simp [invoke, h]

/-- C6 witness: a 404 with body `"oops"` raises `"N00.404"` with the body
appended, and a 200 whose decode yields `None` for a typed target raises
`"N01"`. -/
theorem C6_invoke_errors_witness :
    invoke (V := Nat) .typed ⟨404, "oops"⟩ none =
      .error ⟨"N00.404",
        "The HTTP request failed with status code 404. The response message is: oops"⟩
    ∧ invoke (V := Nat) .typed ⟨200, ""⟩ none =
      .error ⟨"N01", "Response data could not be deserialized."⟩ := by
  constructor
  · have h := C6_invoke_errors.1 Nat .typed ⟨404, "oops"⟩ none (by decide)
    simpa using h
  · exact C6_invoke_errors.2 Nat ⟨200, ""⟩ (by decide)

/-- C9: exiting the scope returned by `attach_configuration` (its
`__exit__` runs on normal and exceptional exit alike) removes the
configuration header entirely: after the exit no configuration header is
present — in particular a configuration attached before the scope was
entered is not restored — while headers under any other key are
untouched. -/
theorem C9_attach_scope_exit_clears :
    (∀ (h : HeadersM) (encoded_json : String),
      disposableConfigurationExit (attach_configuration h encoded_json)
        configurationHeaderKey = none)
    ∧ (∀ (h : HeadersM),
        disposableConfigurationExit h configurationHeaderKey = none)
    ∧ (∀ (h : HeadersM) (encoded_json : String) (key : String),
        key ≠ configurationHeaderKey →
        disposableConfigurationExit (attach_configuration h encoded_json) key
          = h key) := by
  refine ⟨?_, ?_, ?_⟩
  · intro h encoded_json
    simp [disposableConfigurationExit, clear_configuration, headerDel]
  · intro h
    simp [disposableConfigurationExit, clear_configuration, headerDel]
  · intro h encoded_json key hk
    simp [disposableConfigurationExit, clear_configuration, attach_configuration,
      headerDel, headerSet, hk]

/-- C9 witness: exiting a scope attached on a client that already carried a
configuration header leaves no configuration header, and leaves the
authorization header untouched. -/
theorem C9_attach_scope_exit_clears_witness :
    disposableConfigurationExit
      (attach_configuration
        (headerSet (fun _ => none) "Authorization" "Bearer t") "eyJmb28iOiAxfQ==")
      configurationHeaderKey = none
    ∧ disposableConfigurationExit
        (attach_configuration
          (attach_configuration (fun _ => none) "old") "new")
        configurationHeaderKey = none
    ∧ disposableConfigurationExit
        (attach_configuration
          (headerSet (fun _ => none) "Authorization" "Bearer t") "eyJmb28iOiAxfQ==")
        "Authorization" = some "Bearer t" := by
  refine ⟨C9_attach_scope_exit_clears.1 _ _, C9_attach_scope_exit_clears.1 _ _, ?_⟩
  have h := C9_attach_scope_exit_clears.2.2
    (headerSet (fun _ => none) "Authorization" "Bearer t") "eyJmb28iOiAxfQ=="
    "Authorization" (by decide)
  rw [h]
  simp [headerSet]

/-- The poll loop only breaks after assigning a string artifact id: an exit
carrying `artifact_id = None` is impossible. -/
theorem pollLoop_no_completed_none (polls : List JobStatusM) :
    (pollLoop polls).1 ≠ PollExit.completed none := by
  induction polls with
  | nil => simp [pollLoop]
  | cons js rest ih =>
    simp only [pollLoop]
    split
    · simp
    · split
      · simp
      · split
        · simp
        · simpa using ih

/-- C1: the claimed failure is unreachable.  For every poll sequence, the
export workflow never fails with the invalid-job-result error: when a
fetched status is `RanToCompletion` with an absent or non-string result, the
loop does not break but polls again (the post-loop
`raise Exception("The job result is invalid.")` is dead code) — concretely,
a poll sequence consisting of such a status exhausts the sequence with no
download instead of failing. -/
theorem C1_invalid_result_unreachable :
    (∀ (file_format : Option String) (polls : List JobStatusM) (dl : DownloadM),
      (export_sim file_format polls dl).1 ≠ ExportOutcome.invalidResultError)
    ∧ export_sim (some "ZIP") [⟨.RAN_TO_COMPLETION, 1, none, some .nonStr⟩] ⟨[], none⟩
        = (.pollsExhausted, [], false) := by
  constructor
  · intro file_format polls dl
    have hno := pollLoop_no_completed_none polls
    rcases h : pollLoop polls with ⟨e, tr⟩
    rw [h] at hno
    cases e with
    | cancelled => simp [export_sim, h]
    | faulted m => simp [export_sim, h]
    | exhausted => simp [export_sim, h]
    | completed a =>
      cases a with
      | none => exact absurd rfl hno
      | some s => cases file_format <;> simp [export_sim, h]
  · have hq : ¬((1 : ℚ) < 1) := lt_irrefl 1
    simp [export_sim, pollLoop, hq, downloadCallbacks, downloadTicks]

/-- A tick on which the loop continues does not change how the loop
exits. -/
theorem pollLoop_cons_continues (s : JobStatusM) (rest : List JobStatusM)
    (h : jobContinues s = true) :
    (pollLoop (s :: rest)).1 = (pollLoop rest).1 := by
  simp only [jobContinues, Bool.and_eq_true, Bool.not_eq_eq_eq_not, Bool.not_true,
    beq_eq_false_iff_ne, ne_eq, Bool.and_eq_false_imp, beq_iff_eq] at h
  obtain ⟨⟨h1, h2⟩, h3⟩ := h
  simp only [pollLoop]
  rw [if_neg h1, if_neg h2]
  split
  · rename_i hs hr
    have hf := h3 hs
    rw [hr] at hf
    simp [isStrResult] at hf
  · simp

/-- A run of continuing ticks before the rest of the poll sequence does not
change how the loop exits. -/
theorem pollLoop_append_continues (pre rest : List JobStatusM)
    (h : ∀ s ∈ pre, jobContinues s = true) :
    (pollLoop (pre ++ rest)).1 = (pollLoop rest).1 := by
  induction pre with
  | nil => rfl
  | cons s pre ih =>
    rw [List.cons_append, pollLoop_cons_continues s _ (h s (by simp))]
    exact ih (fun x hx => h x (by simp [hx]))

/-- Every per-chunk download callback is tagged `"download"`. -/
theorem downloadTicks_tag (cl : Option Nat) :
    ∀ (chunks : List Nat) (consumed : Nat),
      ∀ p ∈ downloadTicks cl chunks consumed, p.2 = "download" := by
  intro chunks
  induction chunks with
  | nil => intro consumed p hp; simp [downloadTicks] at hp
  | cons c rest ih =>
    intro consumed p hp
    simp only [downloadTicks] at hp
    rw [List.mem_append] at hp
    rcases hp with hp | hp
    · rcases cl with _ | len
      · simp at hp
      · simp only at hp
        split at hp <;> simp_all
    · exact ih _ p hp

/-- Every download-phase callback is tagged `"download"`. -/
theorem downloadCallbacks_tag (dl : DownloadM) :
    ∀ p ∈ downloadCallbacks dl, p.2 = "download" := by
  intro p hp
  rw [downloadCallbacks, List.mem_append] at hp
  rcases hp with hp | hp
  · exact downloadTicks_tag dl.contentLength dl.chunks 0 p hp
  · simp at hp
    rw [hp]

/-- C3: for the poll sequence
`Running(0.3) → Running(0.7) → RanToCompletion(result="artifact-1")` the
export workflow invokes the progress callback exactly three times with phase
tag `"export"` and fractions 0.3, 0.7, 1.0 in that order, then runs the
download phase (whose callbacks are all tagged `"download"`, the download
being performed) and emits one final `(1.0, "extract")` callback; for any
poll sequence ending in `Faulted` (after ticks on which the loop continues)
it fails with an error carrying the server-reported fault message and
performs no download. -/
theorem C3_export_end_to_end :
    (∀ (fmt : String) (dl : DownloadM),
      export_sim (some fmt) examplePolls dl =
        (.ok,
          [((3 : ℚ)/10, "export"), ((7 : ℚ)/10, "export"), (1, "export")]
            ++ downloadCallbacks dl ++ [(1, "extract")],
          true)
      ∧ (∀ p ∈ downloadCallbacks dl, p.2 = "download")
      ∧ (export_sim (some fmt) examplePolls dl).2.1.filter
            (fun p => p.2 == "export")
          = [((3 : ℚ)/10, "export"), ((7 : ℚ)/10, "export"), (1, "export")])
    ∧ (∀ (fmt : String) (pre : List JobStatusM) (js : JobStatusM) (dl : DownloadM),
        js.status = .FAULTED →
        (∀ s ∈ pre, jobContinues s = true) →
        (export_sim (some fmt) (pre ++ [js]) dl).1 =
          .faultedError
            ("The job has failed. Reason: " ++ pyStrOfOpt js.exception_message)
        ∧ (export_sim (some fmt) (pre ++ [js]) dl).2.2 = false) := by
  have hp : pollLoop examplePolls =
      (.completed (some "artifact-1"),
        [((3 : ℚ)/10, "export"), ((7 : ℚ)/10, "export")]) := by
    norm_num [examplePolls, pollLoop]
    rfl
  constructor
  · intro fmt dl
    have hmain : export_sim (some fmt) examplePolls dl =
        (.ok,
          [((3 : ℚ)/10, "export"), ((7 : ℚ)/10, "export"), (1, "export")]
            ++ downloadCallbacks dl ++ [(1, "extract")],
          true) := by
      simp [export_sim, hp]
    refine ⟨hmain, downloadCallbacks_tag dl, ?_⟩
    rw [hmain]
    simp only [List.filter_append]
    have hdl : (downloadCallbacks dl).filter (fun p => p.2 == "export") = [] := by
      rw [List.filter_eq_nil_iff]
      intro p hpmem
      have := downloadCallbacks_tag dl p hpmem
      simp [this]
    have he : (("export" : String) == "export") = true := by decide
    have hx : (("extract" : String) == "export") = false := by decide
    rw [hdl]
    simp [List.filter, he, hx]
  · intro fmt pre js dl hjs hpre
    have h1 : (pollLoop (pre ++ [js])).1 = (pollLoop [js]).1 :=
      pollLoop_append_continues pre [js] hpre
    have h2 : (pollLoop [js]).1 = .faulted js.exception_message := by
      simp only [pollLoop]
      rw [if_neg (by rw [hjs]; decide), if_pos hjs]
    rcases h : pollLoop (pre ++ [js]) with ⟨e, tr⟩
    rw [h] at h1
    rw [h2] at h1
    subst h1
    constructor <;> simp [export_sim, h]

/-- C3 witness: the end-to-end scenario at a concrete download stream (two
4-byte chunks, content length 8), and a concrete faulted sequence
`Running(0.5) → Faulted("boom")`. -/
theorem C3_export_end_to_end_witness :
    export_sim (some "ZIP") examplePolls ⟨[4, 4], some 8⟩ =
      (.ok,
        [((3 : ℚ)/10, "export"), ((7 : ℚ)/10, "export"), (1, "export")]
          ++ downloadCallbacks ⟨[4, 4], some 8⟩ ++ [(1, "extract")],
        true)
    ∧ (export_sim (some "ZIP")
          ([⟨.RUNNING, 1/2, none, none⟩] ++ [⟨.FAULTED, 1/2, some "boom", none⟩])
          ⟨[], none⟩).1
        = .faultedError "The job has failed. Reason: boom" := by
  constructor
  · exact (C3_export_end_to_end.1 "ZIP" ⟨[4, 4], some 8⟩).1
  · have h := (C3_export_end_to_end.2 "ZIP" [⟨.RUNNING, 1/2, none, none⟩]
      ⟨.FAULTED, 1/2, some "boom", none⟩ ⟨[], none⟩ rfl
      (by intro s hs; simp at hs; subst hs; decide)).1
    simpa [pyStrOfOpt] using h

/-- Staging ignores exactly the members whose translated key names no
declared field: staging the filtered data gives the same parameters. -/
theorem stagedParameters_filter (pnd : String → String)
    (decodeF : FieldKind → JsonVal → FieldVal) (fields : List (String × FieldKind)) :
    ∀ data, stagedParameters pnd decodeF fields data
      = stagedParameters pnd decodeF fields
          (data.filter (fun kv => (lookupFieldKind fields (pnd kv.1)).isSome)) := by
  intro data
  induction data with
  | nil => rfl
  | cons kv rest ih =>
    simp only [stagedParameters] at ih ⊢
    rcases hl : lookupFieldKind fields (pnd kv.1) with _ | k <;>
      simp [List.filterMap_cons, List.filter_cons, hl, ih]

/-- C5: decoding a JSON object against a record type ignores every member
whose name-decoded key names no declared field (decoding equals decoding
the filtered object); decoding `{}` yields an instance assigning every
`int` field `0`, every `float` field `0.0` and every other field `None`;
and every declared field that received no value is filled with its type
default. -/
theorem C5_record_decode_defaults :
    (∀ (pnd : String → String) (decodeF : FieldKind → JsonVal → FieldVal)
        (fields : List (String × FieldKind)),
      decodeRecord pnd decodeF fields [] =
        fields.map (fun f => (f.1, defaultFor f.2)))
    ∧ (∀ (pnd : String → String) (decodeF : FieldKind → JsonVal → FieldVal)
        (fields : List (String × FieldKind)) (data : List (String × JsonVal)),
        decodeRecord pnd decodeF fields data =
          decodeRecord pnd decodeF fields
            (data.filter (fun kv => (lookupFieldKind fields (pnd kv.1)).isSome)))
    ∧ (∀ (pnd : String → String) (decodeF : FieldKind → JsonVal → FieldVal)
        (fields : List (String × FieldKind)) (data : List (String × JsonVal))
        (name : String) (kind : FieldKind),
        (name, kind) ∈ fields →
        (∀ kv ∈ data, pnd kv.1 ≠ name) →
        (name, defaultFor kind) ∈ decodeRecord pnd decodeF fields data) := by
  refine ⟨?_, ?_, ?_⟩
  · intro pnd decodeF fields
    simp [decodeRecord, stagedParameters]
  · intro pnd decodeF fields data
    simp only [decodeRecord]
    rw [← stagedParameters_filter]
  · intro pnd decodeF fields data name kind hmem hdata
    have hfind : (stagedParameters pnd decodeF fields data).reverse.find?
        (fun kv => kv.1 = name) = none := by
      rw [List.find?_eq_none]
      intro x hx
      rw [List.mem_reverse] at hx
      simp only [stagedParameters, List.mem_filterMap] at hx
      obtain ⟨kv, hkv, hxeq⟩ := hx
      rcases hl : lookupFieldKind fields (pnd kv.1) with _ | k
      · rw [hl] at hxeq
        simp at hxeq
      · rw [hl] at hxeq
        simp only [Option.some.injEq] at hxeq
        have hne := hdata kv hkv
        rw [← hxeq]
        simp [hne]
    rw [decodeRecord, List.mem_map]
    exact ⟨(name, kind), hmem, by rw [hfind]; rfl⟩

/-- C5 witness: decoding an object carrying only the unknown key `"b"`
against a record with a single `int` field `"a"` yields `a = 0`. -/
theorem C5_record_decode_defaults_witness :
    ("a", defaultFor FieldKind.int) ∈
      decodeRecord property_name_decoder (fun _ _ => FieldVal.vnone)
        [("a", FieldKind.int)] [("b", JsonVal.null)] := by
  exact C5_record_decode_defaults.2.2 property_name_decoder (fun _ _ => FieldVal.vnone)
    [("a", FieldKind.int)] [("b", JsonVal.null)] "a" FieldKind.int (by simp)
    (by intro kv hkv; simp at hkv; rw [hkv]; decide)

/-! ### Decimal-digit lemmas for the duration codec -/

/-- Digit characters are digits. -/
theorem digitChar_isDigit : ∀ d < 10, (digitChar d).isDigit = true := by decide

/-- `digitVal` inverts `digitChar` on digits. -/
theorem digitVal_digitChar : ∀ d < 10, digitVal (digitChar d) = d := by decide

/-- With sufficient fuel, the decimal rendering consists of digits, is
nonempty, and is inverted by `digitsToNat`. -/
theorem natReprGo_spec :
    ∀ fuel n, n < fuel →
      (∀ c ∈ natReprGo fuel n, c.isDigit = true)
        ∧ natReprGo fuel n ≠ [] ∧ digitsToNat (natReprGo fuel n) = n := by
  intro fuel
  induction fuel with
  | zero => intro n h; omega
  | succ fuel ih =>
    intro n h
    by_cases h10 : n < 10
    · simp only [natReprGo, if_pos h10]
      refine ⟨?_, by simp, ?_⟩
      · intro c hc
        simp at hc
        rw [hc]
        exact digitChar_isDigit n h10
      · show List.foldl _ 0 [digitChar n] = n
        simp only [List.foldl_cons, List.foldl_nil]
        rw [Nat.zero_mul, Nat.zero_add]
        exact digitVal_digitChar n h10
    · have hdivlt : n / 10 < fuel := by omega
      obtain ⟨ihd, ihne, ihval⟩ := ih (n / 10) hdivlt
      simp only [natReprGo, if_neg h10]
      refine ⟨?_, by simp, ?_⟩
      · intro c hc
        rw [List.mem_append] at hc
        rcases hc with hc | hc
        · exact ihd c hc
        · simp at hc
          rw [hc]
          exact digitChar_isDigit _ (by omega)
      · show List.foldl _ 0 (_ ++ [digitChar (n % 10)]) = n
        rw [List.foldl_append]
        simp only [List.foldl_cons, List.foldl_nil]
        rw [digitsToNat] at ihval
        rw [ihval, digitVal_digitChar _ (by omega)]
        omega

/-- The decimal rendering consists of digits. -/
theorem natRepr_all_digits (n : Nat) : ∀ c ∈ natRepr n, c.isDigit = true :=
  (natReprGo_spec (n + 1) n (by omega)).1

/-- The decimal rendering is nonempty. -/
theorem natRepr_ne_nil (n : Nat) : natRepr n ≠ [] :=
  (natReprGo_spec (n + 1) n (by omega)).2.1

/-- `digitsToNat` inverts the decimal rendering. -/
theorem digitsToNat_natRepr (n : Nat) : digitsToNat (natRepr n) = n :=
  (natReprGo_spec (n + 1) n (by omega)).2.2

/-- With sufficient fuel, a one-digit number renders as its digit
character. -/
theorem natReprGo_small (fuel n : Nat) (hf : n < fuel) (h10 : n < 10) :
    natReprGo fuel n = [digitChar n] := by
  cases fuel with
  | zero => omega
  | succ fuel => simp [natReprGo, h10]

/-- A two-digit number renders as its two digit characters. -/
theorem natRepr_two_digits (n : Nat) (h10 : 10 ≤ n) (h100 : n < 100) :
    natRepr n = [digitChar (n / 10), digitChar (n % 10)] := by
  rw [natRepr]
  have h1 : ¬(n < 10) := by omega
  show natReprGo (n + 1) n = _
  cases hn : n + 1 with
  | zero => omega
  | succ fuel =>
    simp only [natReprGo, if_neg h1]
    rw [natReprGo_small fuel (n / 10) (by omega) (by omega)]
    rfl

/-- Zero-padding to width two yields exactly the two digit characters. -/
theorem padZero_two (n : Nat) (h : n < 100) :
    padZero 2 (natRepr n) = [digitChar (n / 10), digitChar (n % 10)] := by
  by_cases h10 : n < 10
  · have hrepr : natRepr n = [digitChar n] :=
      natReprGo_small (n + 1) n (by omega) h10
    rw [padZero, hrepr]
    have hd : n / 10 = 0 := by omega
    have hm : n % 10 = n := by omega
    rw [hd, hm]
    rfl
  · rw [natRepr_two_digits n (by omega) h, padZero]
    rfl

/-- Leading zero characters do not change `digitsToNat`. -/
theorem digitsToNat_replicate_zero (k : Nat) (xs : List Char) :
    digitsToNat (List.replicate k '0' ++ xs) = digitsToNat xs := by
  rw [digitsToNat, digitsToNat, List.foldl_append]
  have hz : List.foldl (fun a c => a * 10 + digitVal c) 0 (List.replicate k '0') = 0 := by
    induction k with
    | zero => rfl
    | succ k ih => simpa [List.replicate_succ] using ih
  rw [hz]

/-- `digitsToNat` inverts zero-padded decimal rendering. -/
theorem digitsToNat_padZero (w n : Nat) : digitsToNat (padZero w (natRepr n)) = n := by
  rw [padZero, digitsToNat_replicate_zero, digitsToNat_natRepr]

/-- Zero-padded decimal renderings consist of digits. -/
theorem padZero_all_digits (w n : Nat) : ∀ c ∈ padZero w (natRepr n), c.isDigit = true := by
  intro c hc
  rw [padZero, List.mem_append] at hc
  rcases hc with hc | hc
  · rw [List.eq_of_mem_replicate hc]
    decide
  · exact natRepr_all_digits n c hc

/-- `digitsToNat` of a digit list extended by one digit character. -/
theorem digitsToNat_append_single (xs : List Char) (c : Char) :
    digitsToNat (xs ++ [c]) = 10 * digitsToNat xs + digitVal c := by
  rw [digitsToNat, digitsToNat, List.foldl_append]
  simp only [List.foldl_cons, List.foldl_nil]
  omega

/-- `digitsToNat` of a two-digit-character list. -/
theorem digitsToNat_pair (a b : Nat) (ha : a < 10) (hb : b < 10) :
    digitsToNat [digitChar a, digitChar b] = 10 * a + b := by
  show List.foldl _ 0 _ = 10 * a + b
  simp only [List.foldl_cons, List.foldl_nil]
  rw [Nat.zero_mul, Nat.zero_add, digitVal_digitChar a ha, digitVal_digitChar b hb]
  omega

/-- The rounding division by ten is exact on multiples of ten. -/
theorem divRoundHalfEven10_mul (u : Nat) : divRoundHalfEven10 (10 * u) = u := by
  rw [divRoundHalfEven10]
  have h1 : 10 * u % 10 = 0 := by omega
  rw [if_pos (by omega)]
  omega

/-- `takeWhile` passes over a prefix of satisfying elements. -/
theorem takeWhile_append_all {p : Char → Bool} :
    ∀ (xs ys : List Char), (∀ c ∈ xs, p c = true) →
      (xs ++ ys).takeWhile p = xs ++ ys.takeWhile p := by
  intro xs ys
  induction xs with
  | nil => intro _; simp
  | cons c rest ih =>
    intro h
    rw [List.cons_append, List.takeWhile_cons, if_pos (h c (by simp)), List.cons_append,
      ih (fun x hx => h x (by simp [hx]))]

/-- `dropWhile` drops a prefix of satisfying elements. -/
theorem dropWhile_append_all {p : Char → Bool} :
    ∀ (xs ys : List Char), (∀ c ∈ xs, p c = true) →
      (xs ++ ys).dropWhile p = ys.dropWhile p := by
  intro xs ys
  induction xs with
  | nil => intro _; simp
  | cons c rest ih =>
    intro h
    rw [List.cons_append, List.dropWhile_cons, if_pos (h c (by simp)),
      ih (fun x hx => h x (by simp [hx]))]

/-- `encode_timedelta` on a nonnegative duration, written out over the
natural-number components. -/
theorem encode_timedelta_ofNat (n : Nat) :
    encode_timedelta (n : Int) = String.mk
      (natRepr (n / 86400000000)
        ++ '.' :: padZero 2 (natRepr (n % 86400000000 / 1000000 / 3600))
        ++ ':' :: padZero 2 (natRepr (n % 86400000000 / 1000000 % 3600 / 60))
        ++ ':' :: padZero 2 (natRepr (n % 86400000000 / 1000000 % 3600 % 60))
        ++ '.' :: padZero 6 (natRepr (n % 86400000000 % 1000000)) ++ ['0']) := by
  simp only [encode_timedelta]
  have h1 : (n : Int).fdiv 86400000000 = ((n / 86400000000 : Nat) : Int) := by
    rw [Int.fdiv_eq_ediv _ (by norm_num)]
    omega
  have h2 : ((n : Int).fmod 86400000000).toNat = n % 86400000000 := by
    rw [Int.fmod_eq_emod _ (by norm_num)]
    omega
  rw [h1, h2, intRepr, if_neg (by exact Int.not_lt.mpr (Int.natCast_nonneg _)),
    Int.toNat_natCast]

/-- The character list of a constructed string. -/
theorem string_data_mk (l : List Char) : (String.mk l).data = l := rfl

/-- The duration codec round-trips every nonnegative duration. -/
theorem decode_encode_timedelta (t : Int) (ht : 0 ≤ t) :
    decode_timedelta (encode_timedelta t) = some t := by
  obtain ⟨n, rfl⟩ : ∃ n : Nat, t = (n : Int) :=
    ⟨t.toNat, (Int.toNat_of_nonneg ht).symm⟩
  rw [encode_timedelta_ofNat]
  simp only [List.cons_append, List.append_assoc]
  generalize hD : n / 86400000000 = D
  generalize hR : n % 86400000000 = R
  generalize hH : R / 1000000 / 3600 = H
  generalize hM : R / 1000000 % 3600 / 60 = M
  generalize hS : R / 1000000 % 3600 % 60 = S
  generalize hU : R % 1000000 = U
  generalize hREST : padZero 2 (natRepr H)
    ++ ':' :: (padZero 2 (natRepr M)
      ++ ':' :: (padZero 2 (natRepr S)
        ++ '.' :: (padZero 6 (natRepr U) ++ ['0']))) = REST
  have hdigitdot : Char.isDigit '.' = false := by decide
  have hdrop : (natRepr D ++ '.' :: REST).dropWhile Char.isDigit = '.' :: REST := by
    rw [dropWhile_append_all _ _ (natRepr_all_digits D)]
    simp [List.dropWhile_cons, hdigitdot]
  have htake : (natRepr D ++ '.' :: REST).takeWhile Char.isDigit = natRepr D := by
    rw [takeWhile_append_all _ _ (natRepr_all_digits D)]
    simp [List.takeWhile_cons, hdigitdot]
  simp only [decode_timedelta, string_data_mk, hdrop, htake]
  rw [if_pos trivial, if_neg (natRepr_ne_nil D), digitsToNat_natRepr]
  rw [← hREST, padZero_two H (by omega), padZero_two M (by omega), padZero_two S (by omega)]
  simp only [List.cons_append, List.nil_append]
  simp only [parseHMS]
  rw [if_pos ⟨trivial, trivial, digitChar_isDigit _ (by omega), digitChar_isDigit _ (by omega),
    digitChar_isDigit _ (by omega), digitChar_isDigit _ (by omega),
    digitChar_isDigit _ (by omega), digitChar_isDigit _ (by omega)⟩]
  have hall : ((padZero 6 (natRepr U) ++ ['0']).all Char.isDigit) = true := by
    rw [List.all_eq_true]
    intro c hc
    rw [List.mem_append] at hc
    rcases hc with hc | hc
    · exact padZero_all_digits 6 U c hc
    · simp at hc
      rw [hc]
      decide
  simp only [parseSubsec]
  rw [if_pos ⟨trivial, by simp, hall⟩]
  rw [digitsToNat_append_single, digitsToNat_padZero]
  have hdz : digitVal '0' = 0 := by decide
  rw [hdz, Nat.add_zero, divRoundHalfEven10_mul]
  rw [digitsToNat_pair _ _ (by omega) (by omega), digitsToNat_pair _ _ (by omega) (by omega),
    digitsToNat_pair _ _ (by omega) (by omega)]
  have harith :
      (D * 86400 + (10 * (H / 10) + H % 10) * 3600 + (10 * (M / 10) + M % 10) * 60
        + (10 * (S / 10) + S % 10)) * 1000000 + U = n := by
    omega
  simp only [harith]

/-- C4 counterexample: the round-trip fails for a negative duration.
`timedelta(days=-1)` (total microseconds `-86400000000`) encodes to
`"-1.00:00:00.0000000"`, which the decode pattern (whose day group is
`[0-9]+`) rejects. -/
theorem C4_counterexample :
    decode_timedelta (encode_timedelta (-86400000000)) ≠ some (-86400000000) := by
  decide

/-- C4 (amended): the duration codec round-trips every nonnegative duration
(durations with a negative day component encode to strings the decoder
rejects, so the unrestricted claim fails); the duration of 1 day, 2 hours,
3 minutes, 4 seconds and 500000 microseconds encodes to exactly
`"1.02:03:04.5000000"` and decoding that string yields the original
duration; and under the SDK options the enum codec round-trips every
`TaskStatus` member. -/
theorem C4_codec_roundtrip :
    (∀ t : Int, 0 ≤ t → decode_timedelta (encode_timedelta t) = some t)
    ∧ encode_timedelta 93784500000 = "1.02:03:04.5000000"
    ∧ decode_timedelta "1.02:03:04.5000000" = some 93784500000
    ∧ ∀ m : TaskStatus, decodeTaskStatus (encodeTaskStatus m) = some m := by
  refine ⟨decode_encode_timedelta, by decide, by decide, ?_⟩
  intro m
  cases m <;> decide

/-- C4 witness: the round-trip theorem applied to the concrete duration of
the claim. -/
theorem C4_codec_roundtrip_witness :
    decode_timedelta (encode_timedelta 93784500000) = some 93784500000 :=
  C4_codec_roundtrip.1 93784500000 (by norm_num)

/-- C10: encoding a nonnegative duration always emits the day component,
even when the duration is shorter than one day (the emitted string starts
with the decimal day count and a dot); in particular a duration of exactly
2 hours encodes to `"0.02:00:00.0000000"`, never to `"02:00:00.0000000"`. -/
theorem C10_duration_day_component :
    (∀ t : Int, 0 ≤ t → t < 86400000000 →
      ∃ rest, encode_timedelta t = String.mk ('0' :: '.' :: rest))
    ∧ encode_timedelta 7200000000 = "0.02:00:00.0000000"
    ∧ "0.02:00:00.0000000" ≠ "02:00:00.0000000" := by
  refine ⟨?_, by decide, by decide⟩
  intro t h0 hlt
  obtain ⟨n, rfl⟩ : ∃ n : Nat, t = (n : Int) :=
    ⟨t.toNat, (Int.toNat_of_nonneg h0).symm⟩
  rw [encode_timedelta_ofNat]
  have hn : n < 86400000000 := by exact_mod_cast hlt
  have hD : n / 86400000000 = 0 := by omega
  rw [hD]
  have h0r : natRepr 0 = ['0'] := by decide
  rw [h0r]
  exact ⟨_, rfl⟩

/-- C10 witness: the day-component theorem applied at the 2-hour
duration. -/
theorem C10_duration_day_component_witness :
    ∃ rest, encode_timedelta 7200000000 = String.mk ('0' :: '.' :: rest) :=
  C10_duration_day_component.1 7200000000 (by norm_num) (by norm_num)

end Nexus
